import Mathlib

/-!
# Verification of `typedprotocol`'s compatibility engines

A shallow embedding of `src/typedprotocol/type_checker.py` and
`src/typedprotocol/method_checker.py`, together with proofs of the
behavioural properties claimed by the specification.

## The model of Python type descriptors

A value passed as `actual`/`expected` to
`TypeChecker.is_compatible_with_unification` is one of:

* a `typing.TypeVar` (identified here by a numeric atom);
* a plain class (`inspect.isclass` is true, `typing.get_origin` is `None`);
* a parameterized generic alias such as `list[int]`
  (`typing.get_origin` returns the origin, `typing.get_args` the arguments,
  `inspect.isclass` is false);
* any other descriptor (`None`, `typing.Any`, strings, ...), on which the
  engine only ever uses `==`.

Identifiers (class names, TypeVar names, parameter names) are modelled as
numeric atoms.  Python `==` on descriptors is structural equality of the
model.  `issubclass(a, e)` dispatches to `type(e).__subclasscheck__`, which
user metaclasses may override with a raising implementation; the model
therefore gives `issubclass` an `Except` result, raising exactly for one
designated "weird" class atom.  The subclass table is reflexive, makes every
class a subclass of `object`, and records `bool <: int` (the numeric-tower
example from the specification).
-/

/-- Python exception kinds that the two engines can observe and catch. -/
inductive PyErr where
  | typeError
  | attributeError
  | valueError
deriving DecidableEq

/-- Model of a Python type descriptor (see the header comment). -/
inductive Ty where
  /-- a `typing.TypeVar`, identified by a numeric atom -/
  | tvar (v : Nat)
  /-- a plain class, identified by a numeric atom -/
  | cls (c : Nat)
  /-- a parameterized generic alias: origin class atom plus argument list -/
  | generic (origin : Nat) (args : List Ty)
  /-- any other descriptor (`None`, `typing.Any`, ...), compared by `==` only -/
  | other (k : Nat)

mutual

/-- Python `==` on type descriptors: structural equality of the model. -/
def tyEq : Ty → Ty → Bool
  | .tvar v, .tvar w => v == w
  | .cls c, .cls d => c == d
  | .generic o as, .generic p bs => o == p && tyListEq as bs
  | .other k, .other l => k == l
  | _, _ => false

/-- Pointwise `tyEq` on argument lists. -/
def tyListEq : List Ty → List Ty → Bool
  | [], [] => true
  | a :: as, b :: bs => tyEq a b && tyListEq as bs
  | _, _ => false

end

instance : BEq Ty := ⟨tyEq⟩

mutual

theorem tyEq_iff : ∀ a b : Ty, tyEq a b = true ↔ a = b
  | .tvar v, .tvar w => by simp [tyEq]
  | .cls c, .cls d => by simp [tyEq]
  | .generic o as, .generic p bs => by
    simp [tyEq, tyListEq_iff as bs]
  | .other k, .other l => by simp [tyEq]
  | .tvar _, .cls _ => by simp [tyEq]
  | .tvar _, .generic _ _ => by simp [tyEq]
  | .tvar _, .other _ => by simp [tyEq]
  | .cls _, .tvar _ => by simp [tyEq]
  | .cls _, .generic _ _ => by simp [tyEq]
  | .cls _, .other _ => by simp [tyEq]
  | .generic _ _, .tvar _ => by simp [tyEq]
  | .generic _ _, .cls _ => by simp [tyEq]
  | .generic _ _, .other _ => by simp [tyEq]
  | .other _, .tvar _ => by simp [tyEq]
  | .other _, .cls _ => by simp [tyEq]
  | .other _, .generic _ _ => by simp [tyEq]

theorem tyListEq_iff : ∀ as bs : List Ty, tyListEq as bs = true ↔ as = bs
  | [], [] => by simp [tyListEq]
  | a :: as, b :: bs => by
    simp [tyListEq, tyEq_iff a b, tyListEq_iff as bs]
  | [], _ :: _ => by simp [tyListEq]
  | _ :: _, [] => by simp [tyListEq]

end

instance : DecidableEq Ty := fun a b => decidable_of_iff _ (tyEq_iff a b)

theorem tyEq_refl (a : Ty) : tyEq a a = true := (tyEq_iff a a).mpr rfl

/-- The TypeVar binding context: the Python dict
`type_var_mapping : dict[TypeVar, Any]`, as an association list.
The engine only ever inserts a key that is absent, so the front entry
for a key is its value. -/
abbrev Ctx := List (Nat × Ty)

/-- `expected in type_var_mapping` / `type_var_mapping[expected]`. -/
def lookupTV (v : Nat) : Ctx → Option Ty
  | [] => none
  | (w, t) :: m => if v = w then some t else lookupTV v m

/-- Class atoms used for concrete scenarios. -/
def objectId : Nat := 0

def intId : Nat := 1

def boolId : Nat := 2

def strId : Nat := 3

def bytesId : Nat := 4

/-- Atom of a class whose metaclass overrides the subclass check with a
raising implementation (`__subclasscheck__` raising `TypeError`). -/
def weirdId : Nat := 9

/-- True subclass facts of the modelled class universe: reflexive,
everything is a subclass of `object`, and `bool <: int`. -/
def subclassTable (a e : Nat) : Bool :=
  a == e || e == objectId || (a == boolId && e == intId)

/-- `type(e).__subclasscheck__` raises for the weird class. -/
def subclasscheckRaises (e : Nat) : Bool :=
  e == weirdId

/-- Model of the builtin `issubclass(a, e)`: dispatches on `e`'s metaclass,
which may raise; otherwise answers from the subclass table. -/
def pyIssubclass (a e : Nat) : Except PyErr Bool :=
  if subclasscheckRaises e then .error .typeError
  else .ok (subclassTable a e)

/-- `typing.get_origin`: the origin of a generic alias, `None` otherwise. -/
def getOrigin : Ty → Option Nat
  | .generic o _ => some o
  | _ => none

/-- `typing.get_args`: the arguments of a generic alias, `()` otherwise. -/
def getArgs : Ty → List Ty
  | .generic _ args => args
  | _ => []

/-- `inspect.isclass`. -/
def isClass : Ty → Bool
  | .cls _ => true
  | _ => false

namespace TypeChecker

mutual

/-- The body of `TypeChecker.is_compatible_with_unification`
(type_checker.py lines 15-47), i.e. the code inside the `try`.
The match arms follow the source's control flow in order:
expected-is-TypeVar first (lines 16-21); then the generic branch
(lines 23-41: if either origin is non-None, unequal origins or unequal
argument counts fail, else every argument pair is checked recursively);
then the both-are-classes branch `return issubclass(actual, expected)`
(lines 44-45), which may raise; finally `return actual == expected`
(line 47). -/
def tcBody : Ty → Ty → Ctx → Except PyErr Bool × Ctx
  | a, .tvar v, m =>
    match lookupTV v m with
    | some t => (.ok (tyEq t a), m)
    | none => (.ok true, (v, a) :: m)
  | .generic ao aargs, .generic eo eargs, m =>
    if ao ≠ eo then (.ok false, m)
    else if aargs.length ≠ eargs.length then (.ok false, m)
    else tcAll aargs eargs m
  | .generic _ _, _, m => (.ok false, m)
  | _, .generic _ _, m => (.ok false, m)
  | .cls ca, .cls ce, m =>
    (match pyIssubclass ca ce with
      | .ok b => .ok b
      | .error err => .error err, m)
  | a, e, m => (.ok (tyEq a e), m)
termination_by a e m => (sizeOf e, 0)

/-- `all(TypeChecker.is_compatible_with_unification(a, e, m) for a, e in
zip(actual_args, expected_args))` (type_checker.py lines 38-41):
short-circuits at the first `False`, keeping the context mutations made
by the calls already evaluated.  Called only with equally long lists;
`zip` truncation gives the degenerate arms. -/
def tcAll : List Ty → List Ty → Ctx → Except PyErr Bool × Ctx
  | _, [], m => (.ok true, m)
  | [], _ :: _, m => (.ok true, m)
  | a :: as, e :: es, m =>
    match is_compatible_with_unification a e m with
    | (true, m') => tcAll as es m'
    | (false, m') => (.ok false, m')
termination_by as es m => (sizeOf es, 2)

/-- `TypeChecker.is_compatible_with_unification` (type_checker.py
lines 11-50): runs the body inside `try`, and on
`except (TypeError, AttributeError)` returns `actual == expected`
(lines 49-50).  The context is threaded explicitly in place of the
in-place dict mutation. -/
def is_compatible_with_unification (a e : Ty) (m : Ctx) : Bool × Ctx :=
  match tcBody a e m with
  | (.ok b, m') => (b, m')
  | (.error _, m') => (tyEq a e, m')
termination_by (sizeOf e, 1)

end

/-- `TypeChecker.is_compatible` (type_checker.py lines 52-55). -/
def is_compatible (a e : Ty) : Bool :=
  (is_compatible_with_unification a e []).1

end TypeChecker

open TypeChecker in
example : is_compatible (.cls boolId) (.cls intId) = true := by
  simp [is_compatible, is_compatible_with_unification, tcBody, pyIssubclass,
    subclasscheckRaises, subclassTable, boolId, intId, weirdId, objectId]

open TypeChecker in
example : is_compatible (.cls intId) (.cls boolId) = false := by
  simp [is_compatible, is_compatible_with_unification, tcBody, pyIssubclass,
    subclasscheckRaises, subclassTable, boolId, intId, weirdId, objectId]

open TypeChecker in
example :
    is_compatible_with_unification (.cls intId) (.tvar 7) [] =
      (true, [(7, .cls intId)]) := by
  simp [is_compatible_with_unification, tcBody, lookupTV]

open TypeChecker in
example :
    is_compatible_with_unification
      (.generic 20 [.cls intId, .cls strId])
      (.generic 20 [.tvar 7, .tvar 7]) [] =
      (false, [(7, .cls intId)]) := by
  simp [is_compatible_with_unification, tcBody, tcAll, lookupTV, tyEq,
    intId, strId]

open TypeChecker in
example :
    is_compatible_with_unification (.cls weirdId) (.cls weirdId) [] =
      (true, []) := by
  simp [is_compatible_with_unification, tcBody, pyIssubclass,
    subclasscheckRaises, tyEq]

/-!
## The model of Python methods

`MethodChecker.are_compatible_with_unification` observes a method through:
`inspect.signature` (the ordered parameter names; may raise for exotic
callables), `__annotations__` (a dict from parameter name / `'return'` to a
descriptor, where a declared `-> None` stores the Python object `None`),
`inspect.iscoroutinefunction`, and the optional `_original_method` attribute
carried by `SubstitutedMethod` wrappers (whose signature supplies the real
parameter list while the wrapper's own `__annotations__` supply the
substituted declared types).  Annotation values are `Option Ty`, with `none`
modelling the Python object `None`; `dict.get` cannot distinguish an absent
key from a key stored as `None`.
-/

/-- Atom modelling the string `'return'`, the `__annotations__` key of the
return annotation.  (In Python no parameter can be named `return`.) -/
def returnKey : Nat := 100

/-- Model of a Python method/callable as the two engines observe it. -/
structure PyMethod where
  /-- parameter names, in order, from `inspect.signature(method).parameters` -/
  paramNames : List Nat
  /-- `__annotations__`: key atom ↦ descriptor; value `none` models the
  Python object `None` (e.g. a declared `-> None` return) -/
  anns : List (Nat × Option Ty)
  /-- `inspect.iscoroutinefunction(method)` -/
  isCoroutine : Bool
  /-- `some names` when the method is a `SubstitutedMethod` wrapper carrying
  `_original_method`: the original method's signature parameter names -/
  originalParamNames : Option (List Nat)
  /-- `inspect.signature(method)` raises (`ValueError`/`TypeError` for some
  callables) -/
  sigRaises : Bool

/-- Raw association-list lookup in an `__annotations__` dict:
distinguishes an absent key from a key whose stored value is `None`. -/
def lookupAnn (n : Nat) : List (Nat × Option Ty) → Option (Option Ty)
  | [] => none
  | (k, t) :: rest => if n = k then some t else lookupAnn n rest

/-- Python `annotations.get(name)`: `None` both when the key is absent and
when its stored value is `None`. -/
def pyGet (anns : List (Nat × Option Ty)) (n : Nat) : Option Ty :=
  match lookupAnn n anns with
  | none => none
  | some v => v

namespace MethodChecker

/-- The per-parameter loop of `MethodChecker.are_compatible_with_unification`
(method_checker.py lines 40-52): for each positional pair, names must be
equal; when the protocol annotation (via `.get`) is non-`None` the candidate
annotation must be non-`None` and compatible per the type engine, threading
the binding context.  Parameter counts are already known equal; `zip`
truncation gives the degenerate arms. -/
def mcParams : List Nat → List Nat → List (Nat × Option Ty) →
    List (Nat × Option Ty) → Ctx → Bool × Ctx
  | _, [], _, _, m => (true, m)
  | [], _ :: _, _, _, m => (true, m)
  | an :: ans, pn :: pns, aAnns, pAnns, m =>
    if an ≠ pn then (false, m)
    else
      match pyGet pAnns pn with
      | none => mcParams ans pns aAnns pAnns m
      | some pt =>
        match pyGet aAnns an with
        | none => (false, m)
        | some at' =>
          match TypeChecker.is_compatible_with_unification at' pt m with
          | (true, m') => mcParams ans pns aAnns pAnns m'
          | (false, m') => (false, m')

/-- The body of `MethodChecker.are_compatible_with_unification`
(method_checker.py lines 16-65), i.e. the code inside the `try`:
`inspect.signature` on both methods (which may raise; the protocol side
resolves `_original_method` when present, lines 17-25); the
sync/async-ness gate (lines 28-29); the parameter-count gate (lines 37-38);
the per-parameter loop (lines 40-52); and the return check (lines 55-63),
where a protocol `.get('return')` of `None` skips the check entirely. -/
def mcBody (am pm : PyMethod) (m : Ctx) : Except PyErr Bool × Ctx :=
  if am.sigRaises then (.error .valueError, m)
  else if pm.sigRaises then (.error .valueError, m)
  else
    let protoParams := pm.originalParamNames.getD pm.paramNames
    if am.isCoroutine != pm.isCoroutine then (.ok false, m)
    else if am.paramNames.length ≠ protoParams.length then (.ok false, m)
    else
      match mcParams am.paramNames protoParams am.anns pm.anns m with
      | (false, m') => (.ok false, m')
      | (true, m') =>
        match pyGet pm.anns returnKey with
        | none => (.ok true, m')
        | some pr =>
          match pyGet am.anns returnKey with
          | none => (.ok false, m')
          | some ar =>
            match TypeChecker.is_compatible_with_unification ar pr m' with
            | (b, m'') => (.ok b, m'')

/-- `MethodChecker.are_compatible_with_unification` (method_checker.py
lines 11-68): runs the body inside `try`, and on
`except (TypeError, ValueError, AttributeError)` returns `False`
(lines 67-68). -/
def are_compatible_with_unification (am pm : PyMethod) (m : Ctx) :
    Bool × Ctx :=
  match mcBody am pm m with
  | (.ok b, m') => (b, m')
  | (.error _, m') => (false, m')

/-- `MethodChecker.are_compatible` (method_checker.py lines 70-74). -/
def are_compatible (am pm : PyMethod) : Bool :=
  (are_compatible_with_unification am pm []).1

end MethodChecker

/-- Atoms for the parameter names used in concrete scenarios. -/
def selfName : Nat := 50

def dataName : Nat := 51

def thisName : Nat := 52

/-- `def process(self, data: bytes) -> str` as a protocol method. -/
def processProto : PyMethod :=
  { paramNames := [selfName, dataName]
    anns := [(dataName, some (.cls bytesId)), (returnKey, some (.cls strId))]
    isCoroutine := false
    originalParamNames := none
    sigRaises := false }

/-- A conforming candidate `def process(self, data: bytes) -> str`. -/
def processCand : PyMethod :=
  { paramNames := [selfName, dataName]
    anns := [(dataName, some (.cls bytesId)), (returnKey, some (.cls strId))]
    isCoroutine := false
    originalParamNames := none
    sigRaises := false }

example :
    MethodChecker.are_compatible_with_unification processCand processProto []
      = (true, []) := by
  simp [MethodChecker.are_compatible_with_unification, MethodChecker.mcBody,
    MethodChecker.mcParams, processCand, processProto, pyGet, lookupAnn,
    TypeChecker.is_compatible_with_unification, TypeChecker.tcBody,
    pyIssubclass, subclasscheckRaises, subclassTable, tyEq,
    selfName, dataName, returnKey, bytesId, strId, weirdId, objectId,
    boolId, intId]

/-!
## Helper lemmas
-/

theorem tyEq_eq_decide (a b : Ty) : tyEq a b = decide (a = b) := by
  by_cases h : a = b
  · simp [h, tyEq_refl]
  · simp only [h, decide_False]
    exact Bool.eq_false_iff.mpr fun hc => h ((tyEq_iff a b).mp hc)

namespace TypeChecker

mutual

/-- Bindings present before a `tcBody` call survive it unchanged. -/
theorem tcBody_preserves : ∀ (a e : Ty) (m : Ctx) (v : Nat) (t : Ty),
    lookupTV v m = some t → lookupTV v (tcBody a e m).2 = some t
  | a, .tvar w, m, v, t => by
    intro h
    simp only [tcBody]
    cases hw : lookupTV w m with
    | some t' => simpa using h
    | none =>
      rcases eq_or_ne v w with rfl | hne
      · simp [h] at hw
      · simpa [lookupTV, hne] using h
  | .generic ao aargs, .generic eo eargs, m, v, t => by
    intro h
    simp only [tcBody]
    split
    · simpa using h
    · split
      · simpa using h
      · exact tcAll_preserves aargs eargs m v t h
  | .generic _ _, .cls _, m, v, t => by
    intro h; simpa [tcBody] using h
  | .generic _ _, .other _, m, v, t => by
    intro h; simpa [tcBody] using h
  | .tvar _, .generic _ _, m, v, t => by
    intro h; simpa [tcBody] using h
  | .cls _, .generic _ _, m, v, t => by
    intro h; simpa [tcBody] using h
  | .other _, .generic _ _, m, v, t => by
    intro h; simpa [tcBody] using h
  | .cls ca, .cls ce, m, v, t => by
    intro h
    simp only [tcBody]
    cases pyIssubclass ca ce <;> simpa using h
  | .tvar _, .cls _, m, v, t => by
    intro h; simpa [tcBody] using h
  | .tvar _, .other _, m, v, t => by
    intro h; simpa [tcBody] using h
  | .cls _, .other _, m, v, t => by
    intro h; simpa [tcBody] using h
  | .other _, .cls _, m, v, t => by
    intro h; simpa [tcBody] using h
  | .other _, .other _, m, v, t => by
    intro h; simpa [tcBody] using h
termination_by a e m v t => (sizeOf e, 0)

/-- Bindings present before a `tcAll` call survive it unchanged. -/
theorem tcAll_preserves : ∀ (as es : List Ty) (m : Ctx) (v : Nat) (t : Ty),
    lookupTV v m = some t → lookupTV v (tcAll as es m).2 = some t
  | as, [], m, v, t => by
    intro h; cases as <;> simpa [tcAll] using h
  | [], _ :: _, m, v, t => by
    intro h; simpa [tcAll] using h
  | a :: as, e :: es, m, v, t => by
    intro h
    simp only [tcAll]
    have h1 := is_compatible_with_unification_preserves a e m v t h
    cases hc : is_compatible_with_unification a e m with
    | mk b m' =>
      rw [hc] at h1
      cases b
      · simpa using h1
      · simpa using tcAll_preserves as es m' v t h1
termination_by as es m v t => (sizeOf es, 2)

/-- Bindings present before a compatibility check survive it unchanged:
the engine only ever adds bindings for previously unbound TypeVars. -/
theorem is_compatible_with_unification_preserves :
    ∀ (a e : Ty) (m : Ctx) (v : Nat) (t : Ty),
    lookupTV v m = some t →
    lookupTV v (is_compatible_with_unification a e m).2 = some t
  | a, e, m, v, t => by
    intro h
    simp only [is_compatible_with_unification]
    have h1 := tcBody_preserves a e m v t h
    cases hc : tcBody a e m with
    | mk r m' =>
      rw [hc] at h1
      cases r <;> simpa using h1
termination_by a e m v t => (sizeOf e, 1)

end

end TypeChecker

namespace MethodChecker

/-- Preservation restated through an equation hypothesis, convenient after
`split`. -/
theorem tc_preserves_of_eq {at' pt : Ty} {m m' : Ctx} {b : Bool}
    (hc : TypeChecker.is_compatible_with_unification at' pt m = (b, m'))
    (v : Nat) (t : Ty) (h : lookupTV v m = some t) :
    lookupTV v m' = some t := by
  have h1 :=
    TypeChecker.is_compatible_with_unification_preserves at' pt m v t h
  rw [hc] at h1
  simpa using h1

/-- Bindings present before the parameter loop survive it unchanged. -/
theorem mcParams_preserves :
    ∀ (ans pns : List Nat) (aA pA : List (Nat × Option Ty)) (m : Ctx)
      (v : Nat) (t : Ty),
    lookupTV v m = some t → lookupTV v (mcParams ans pns aA pA m).2 = some t
  | ans, [], aA, pA, m, v, t => by
    intro h; cases ans <;> simpa [mcParams] using h
  | [], _ :: _, aA, pA, m, v, t => by
    intro h; simpa [mcParams] using h
  | an :: ans, pn :: pns, aA, pA, m, v, t => by
    intro h
    simp only [mcParams]
    split
    · simpa using h
    · split
      · exact mcParams_preserves ans pns aA pA m v t h
      · split
        · simpa using h
        · split
          · rename_i m' hc
            exact mcParams_preserves ans pns aA pA m' v t
              (tc_preserves_of_eq hc v t h)
          · rename_i m' hc
            simpa using tc_preserves_of_eq hc v t h

/-- Bindings present before the body of a method check survive it. -/
theorem mcBody_preserves (am pm : PyMethod) (m : Ctx) (v : Nat) (t : Ty)
    (h : lookupTV v m = some t) :
    lookupTV v (mcBody am pm m).2 = some t := by
  simp only [mcBody]
  split
  · simpa using h
  · split
    · simpa using h
    · split
      · simpa using h
      · split
        · simpa using h
        · have h1 := mcParams_preserves am.paramNames
            (pm.originalParamNames.getD pm.paramNames) am.anns pm.anns m v t h
          generalize hc : mcParams am.paramNames
            (pm.originalParamNames.getD pm.paramNames) am.anns pm.anns m = r
          rw [hc] at h1
          cases r with
          | mk b m' =>
            cases b
            · simpa using h1
            · cases hr : pyGet pm.anns returnKey with
              | none => simpa using h1
              | some pr =>
                cases ha : pyGet am.anns returnKey with
                | none => simpa using h1
                | some ar =>
                  simpa using
                    TypeChecker.is_compatible_with_unification_preserves
                      ar pr m' v t h1

/-- Bindings present before a method-compatibility check survive it. -/
theorem are_compatible_with_unification_preserves
    (am pm : PyMethod) (m : Ctx) (v : Nat) (t : Ty)
    (h : lookupTV v m = some t) :
    lookupTV v (are_compatible_with_unification am pm m).2 = some t := by
  simp only [are_compatible_with_unification]
  have h1 := mcBody_preserves am pm m v t h
  generalize hc : mcBody am pm m = r
  rw [hc] at h1
  cases r with
  | mk b m' => cases b <;> simpa using h1

/-- A parameter loop that succeeds on equally long lists saw identical
name lists. -/
theorem mcParams_names_eq :
    ∀ (ans pns : List Nat) (aA pA : List (Nat × Option Ty)) (m : Ctx),
    (mcParams ans pns aA pA m).1 = true → ans.length = pns.length →
    ans = pns
  | [], [], aA, pA, m => by intro _ _; rfl
  | _ :: _, [], aA, pA, m => by intro _ hl; simp at hl
  | [], _ :: _, aA, pA, m => by intro _ hl; simp at hl
  | an :: ans, pn :: pns, aA, pA, m => by
    intro h hl
    have hl' : ans.length = pns.length := by simpa using hl
    simp only [mcParams] at h
    split at h
    · simp at h
    · rename_i hn
      have han : an = pn := by simpa using hn
      subst han
      split at h
      · simpa using mcParams_names_eq ans pns aA pA m h hl'
      · split at h
        · simp at h
        · split at h
          · rename_i m' hc
            simpa using mcParams_names_eq ans pns aA pA m' h hl'
          · simp at h

end MethodChecker

/-- An argument-pair loop that succeeds, viewed without the (never used)
exception channel of `tcAll`: each corresponding pair is checked by
`TypeChecker.is_compatible_with_unification` itself, left to right, each
check seeing the context produced by the previous one, stopping at the
first failure. -/
def TypeChecker.checkArgs : List Ty → List Ty → Ctx → Bool × Ctx
  | _, [], m => (true, m)
  | [], _ :: _, m => (true, m)
  | a :: as, e :: es, m =>
    match TypeChecker.is_compatible_with_unification a e m with
    | (true, m') => TypeChecker.checkArgs as es m'
    | (false, m') => (false, m')

/-- `tcAll` never raises and computes exactly `checkArgs`. -/
theorem TypeChecker.tcAll_eq_checkArgs : ∀ (as es : List Ty) (m : Ctx),
    TypeChecker.tcAll as es m =
      (.ok (TypeChecker.checkArgs as es m).1,
        (TypeChecker.checkArgs as es m).2)
  | as, [], m => by cases as <;> simp [TypeChecker.tcAll, TypeChecker.checkArgs]
  | [], _ :: _, m => by simp [TypeChecker.tcAll, TypeChecker.checkArgs]
  | a :: as, e :: es, m => by
    simp only [TypeChecker.tcAll, TypeChecker.checkArgs]
    split
    · exact TypeChecker.tcAll_eq_checkArgs as es _
    · rfl

namespace MethodChecker

/-- One step of the per-parameter loop, as folded over the (shared) name
list: skip when the protocol leaves the parameter untyped, fail when the
candidate lacks a required annotation, otherwise run the type engine on
the threaded context; a failed accumulator is final. -/
def mcStep (aAnns pAnns : List (Nat × Option Ty)) (acc : Bool × Ctx)
    (n : Nat) : Bool × Ctx :=
  if acc.1 = false then acc
  else
    match pyGet pAnns n with
    | none => acc
    | some pt =>
      match pyGet aAnns n with
      | none => (false, acc.2)
      | some at' => TypeChecker.is_compatible_with_unification at' pt acc.2

theorem mcStep_false (aA pA : List (Nat × Option Ty)) :
    ∀ (ns : List Nat) (acc : Bool × Ctx), acc.1 = false →
    ns.foldl (mcStep aA pA) acc = acc
  | [], acc => by intro _; rfl
  | n :: ns, acc => by
    intro hf
    rw [List.foldl_cons]
    have hstep : mcStep aA pA acc n = acc := by simp [mcStep, hf]
    rw [hstep]
    exact mcStep_false aA pA ns acc hf

/-- On identical name lists (the only way the loop can succeed), the
early-exit parameter loop is the left fold of `mcStep`. -/
theorem mcParams_eq_foldl :
    ∀ (ns : List Nat) (aA pA : List (Nat × Option Ty)) (m : Ctx),
    mcParams ns ns aA pA m = ns.foldl (mcStep aA pA) (true, m)
  | [], aA, pA, m => by rfl
  | n :: ns, aA, pA, m => by
    have hstep : mcStep aA pA (true, m) n =
        (match pyGet pA n with
          | none => (true, m)
          | some pt =>
            match pyGet aA n with
            | none => (false, m)
            | some at' => TypeChecker.is_compatible_with_unification at' pt m)
      := by simp [mcStep]
    rw [List.foldl_cons, hstep]
    simp only [mcParams]
    rw [if_neg (show ¬n ≠ n from fun hc => hc rfl)]
    split
    · exact mcParams_eq_foldl ns aA pA m
    · split
      · exact (mcStep_false aA pA ns (false, m) rfl).symm
      · split
        · rename_i m' hc
          rw [hc]
          exact mcParams_eq_foldl ns aA pA m'
        · rename_i m' hc
          rw [hc]
          exact (mcStep_false aA pA ns (false, m') rfl).symm

/-- When the protocol leaves every parameter untyped, the loop imposes no
constraint on the candidate annotations and leaves the context untouched. -/
theorem mcParams_untyped :
    ∀ (ns : List Nat) (aA pA : List (Nat × Option Ty)) (m : Ctx),
    (∀ n ∈ ns, pyGet pA n = none) → mcParams ns ns aA pA m = (true, m)
  | [], aA, pA, m => by intro _; rfl
  | n :: ns, aA, pA, m => by
    intro hnone
    simp only [mcParams]
    rw [if_neg (show ¬n ≠ n from fun hc => hc rfl),
      hnone n (List.mem_cons_self n ns)]
    exact mcParams_untyped ns aA pA m fun x hx =>
      hnone x (List.mem_cons_of_mem n hx)

/-- A successful loop run means: every parameter the protocol typed also
carries a candidate annotation, and that annotation passed the type engine
in some intermediate context of the run. -/
theorem mcParams_true_typed :
    ∀ (ns : List Nat) (aA pA : List (Nat × Option Ty)) (m : Ctx),
    (mcParams ns ns aA pA m).1 = true →
    ∀ n ∈ ns, ∀ pt, pyGet pA n = some pt →
      ∃ at', pyGet aA n = some at' ∧
        ∃ mb, (TypeChecker.is_compatible_with_unification at' pt mb).1 = true
  | [], aA, pA, m => by intro _ n hn; exact absurd hn (List.not_mem_nil n)
  | n0 :: ns, aA, pA, m => by
    intro h n hn pt hpt
    simp only [mcParams] at h
    rw [if_neg (show ¬n0 ≠ n0 from fun hc => hc rfl)] at h
    split at h
    · rename_i hnone
      rcases List.mem_cons.mp hn with rfl | htail
      · rw [hnone] at hpt; cases hpt
      · exact mcParams_true_typed ns aA pA m h n htail pt hpt
    · rename_i pt0 hpt0
      split at h
      · simp at h
      · rename_i at0 hat0
        split at h
        · rename_i m' hc
          rcases List.mem_cons.mp hn with rfl | htail
          · rw [hpt0] at hpt
            have hpe : pt0 = pt := by simpa using hpt
            subst hpe
            exact ⟨at0, hat0, m, by rw [hc]⟩
          · exact mcParams_true_typed ns aA pA m' h n htail pt hpt
        · simp at h

end MethodChecker

namespace MethodChecker

/-- Inversion of a successful method check: no signature failure, matching
sync/async-ness, equal parameter counts, a successful parameter loop, and —
when the protocol's `.get('return')` is non-`None` — a candidate return
annotation that passed the type engine on the context left by the
parameter loop. -/
theorem are_compat_true_inv (am pm : PyMethod) (m : Ctx)
    (h : (are_compatible_with_unification am pm m).1 = true) :
    am.sigRaises = false ∧ pm.sigRaises = false ∧
    am.isCoroutine = pm.isCoroutine ∧
    am.paramNames.length = (pm.originalParamNames.getD pm.paramNames).length ∧
    (mcParams am.paramNames (pm.originalParamNames.getD pm.paramNames)
      am.anns pm.anns m).1 = true ∧
    ∀ pr, pyGet pm.anns returnKey = some pr →
      ∃ ar, pyGet am.anns returnKey = some ar ∧
        (TypeChecker.is_compatible_with_unification ar pr
          (mcParams am.paramNames (pm.originalParamNames.getD pm.paramNames)
            am.anns pm.anns m).2).1 = true := by
  simp only [are_compatible_with_unification] at h
  split at h
  case h_2 => simp at h
  case h_1 b mf heq =>
    have hb : b = true := h
    subst hb
    simp only [mcBody] at heq
    split at heq
    · simp at heq
    · split at heq
      · simp at heq
      · rename_i hs1 hs2
        split at heq
        · simp at heq
        · rename_i hasync
          split at heq
          · simp at heq
          · rename_i hlen
            refine ⟨by simpa using hs1, by simpa using hs2,
              by simpa using hasync, by simpa using hlen, ?_, ?_⟩
            · split at heq
              · simp at heq
              · rename_i mp hp
                rw [hp]
            · split at heq
              · simp at heq
              · rename_i mp hp
                intro pr hpr
                split at heq
                · rename_i hnone
                  rw [hnone] at hpr
                  cases hpr
                · rename_i pr0 hpr0
                  rw [hpr0] at hpr
                  have hpe : pr0 = pr := by simpa using hpr
                  subst hpe
                  split at heq
                  · simp at heq
                  · rename_i ar0 har0
                    have hinj : (TypeChecker.is_compatible_with_unification
                        ar0 pr0 mp).1 = true := by
                      simpa using congrArg
                        (fun p : Except PyErr Bool × Ctx => p.1) heq
                    refine ⟨ar0, har0, ?_⟩
                    have hmp : (mcParams am.paramNames
                        (pm.originalParamNames.getD pm.paramNames)
                        am.anns pm.anns m).2 = mp := by rw [hp]
                    rw [hmp]
                    exact hinj

end MethodChecker

/-!
## Concrete methods used by the witnesses
-/

/-- `def process(this, data: bytes) -> str`: the receiver renamed, with
every declared type identical to `processProto`'s. -/
def thisCand : PyMethod :=
  { processCand with paramNames := [thisName, dataName] }

/-- The same signature as `processCand`, declared `async`. -/
def asyncCand : PyMethod :=
  { processCand with isCoroutine := true }

/-- `def close(self)`: a protocol method with a single parameter. -/
def oneParamProto : PyMethod :=
  { paramNames := [selfName]
    anns := []
    isCoroutine := false
    originalParamNames := none
    sigRaises := false }

/-- A callable on which `inspect.signature` raises `ValueError`. -/
def brokenSig : PyMethod :=
  { paramNames := []
    anns := []
    isCoroutine := false
    originalParamNames := none
    sigRaises := true }

/-- `def notify(self) -> None`: a protocol method whose declared return is
the Python object `None`. -/
def noneRetProto : PyMethod :=
  { paramNames := [selfName]
    anns := [(returnKey, none)]
    isCoroutine := false
    originalParamNames := none
    sigRaises := false }

/-- `def notify(self) -> int`: a candidate declaring an `int` return. -/
def intRetCand : PyMethod :=
  { paramNames := [selfName]
    anns := [(returnKey, some (.cls intId))]
    isCoroutine := false
    originalParamNames := none
    sigRaises := false }

/-- Like `processCand` but with no return annotation at all. -/
def noRetCand : PyMethod :=
  { processCand with anns := [(dataName, some (.cls bytesId))] }

/-!
## The claims
-/

/-- Claim C3: when the expected type is a TypeVar: if it is already bound in the
context, the check succeeds exactly when the actual type equals the bound
value (exact equality), leaving the context untouched; if it is unbound,
the check binds it to the actual type and succeeds, and afterwards the
TypeVar resolves to exactly that type, so any later occurrence of the same
TypeVar in the same context succeeds precisely on the identical type. -/
theorem claim_C3_typevar_unification (a a' : Ty) (v : Nat) (m : Ctx) :
    (∀ t, lookupTV v m = some t →
      TypeChecker.is_compatible_with_unification a (.tvar v) m =
        (decide (t = a), m)) ∧
    (lookupTV v m = none →
      TypeChecker.is_compatible_with_unification a (.tvar v) m =
        (true, (v, a) :: m) ∧
      lookupTV v ((v, a) :: m) = some a ∧
      (TypeChecker.is_compatible_with_unification a' (.tvar v)
        ((v, a) :: m)).1 = decide (a = a')) := by
  constructor
  · intro t ht
    simp [TypeChecker.is_compatible_with_unification, TypeChecker.tcBody, ht,
      tyEq_eq_decide]
  · intro hn
    refine ⟨?_, by simp [lookupTV], ?_⟩
    · simp [TypeChecker.is_compatible_with_unification, TypeChecker.tcBody,
        hn]
    · simp [TypeChecker.is_compatible_with_unification, TypeChecker.tcBody,
        lookupTV, tyEq_eq_decide]

theorem claim_C3_witness :
    TypeChecker.is_compatible_with_unification (.cls intId) (.tvar 7) [] =
      (true, [(7, .cls intId)]) ∧
    (TypeChecker.is_compatible_with_unification (.cls strId) (.tvar 7)
      [(7, .cls intId)]).1 = decide ((Ty.cls intId) = .cls strId) := by
  have h := claim_C3_typevar_unification (.cls intId) (.cls strId) 7 []
  obtain ⟨hbind, -, hlater⟩ := h.2 rfl
  exact ⟨hbind, hlater⟩

/-- Claim C4: with a non-TypeVar expected type, when either side carries generic
origin/argument structure, compatibility requires equal origins and equally
long argument lists, and then equals the left-to-right recursive check of
the corresponding argument pairs under the same threaded context
(`checkArgs`, whose step runs `is_compatible_with_unification` itself);
differing origins, differing argument counts, or generic-vs-non-generic
mismatches yield `False` without touching the context. -/
theorem claim_C4_generic_structure (m : Ctx) :
    (∀ o as o' es, o ≠ o' →
      TypeChecker.is_compatible_with_unification
        (.generic o as) (.generic o' es) m = (false, m)) ∧
    (∀ o as es, as.length ≠ es.length →
      TypeChecker.is_compatible_with_unification
        (.generic o as) (.generic o es) m = (false, m)) ∧
    (∀ o as es, as.length = es.length →
      TypeChecker.is_compatible_with_unification
        (.generic o as) (.generic o es) m = TypeChecker.checkArgs as es m) ∧
    (∀ a e as es m' m'',
      (TypeChecker.is_compatible_with_unification a e m' = (true, m'') →
        TypeChecker.checkArgs (a :: as) (e :: es) m' =
          TypeChecker.checkArgs as es m'') ∧
      (TypeChecker.is_compatible_with_unification a e m' = (false, m'') →
        TypeChecker.checkArgs (a :: as) (e :: es) m' = (false, m''))) ∧
    (∀ o as e, (∀ v, e ≠ Ty.tvar v) → getOrigin e = none →
      TypeChecker.is_compatible_with_unification (.generic o as) e m
        = (false, m)) ∧
    (∀ a o es, getOrigin a = none →
      TypeChecker.is_compatible_with_unification a (.generic o es) m
        = (false, m)) := by
  refine ⟨?_, ?_, ?_, ?_, ?_, ?_⟩
  · intro o as o' es ho
    simp [TypeChecker.is_compatible_with_unification, TypeChecker.tcBody, ho]
  · intro o as es hl
    simp [TypeChecker.is_compatible_with_unification, TypeChecker.tcBody, hl]
  · intro o as es hl
    simp only [TypeChecker.is_compatible_with_unification,
      TypeChecker.tcBody]
    rw [if_neg (show ¬o ≠ o from fun hc => hc rfl),
      if_neg (show ¬as.length ≠ es.length from fun hc => hc hl),
      TypeChecker.tcAll_eq_checkArgs]
  · intro a e as es m' m''
    constructor
    · intro h
      simp [TypeChecker.checkArgs, h]
    · intro h
      simp [TypeChecker.checkArgs, h]
  · intro o as e hv horig
    cases e with
    | tvar v => exact absurd rfl (hv v)
    | generic o' es => simp [getOrigin] at horig
    | cls c =>
      simp [TypeChecker.is_compatible_with_unification, TypeChecker.tcBody]
    | other k =>
      simp [TypeChecker.is_compatible_with_unification, TypeChecker.tcBody]
  · intro a o es horig
    cases a with
    | generic o' as => simp [getOrigin] at horig
    | tvar v =>
      simp [TypeChecker.is_compatible_with_unification, TypeChecker.tcBody]
    | cls c =>
      simp [TypeChecker.is_compatible_with_unification, TypeChecker.tcBody]
    | other k =>
      simp [TypeChecker.is_compatible_with_unification, TypeChecker.tcBody]

theorem claim_C4_witness :
    TypeChecker.is_compatible_with_unification
      (.generic 20 [.cls intId]) (.generic 21 [.cls intId]) [] =
      (false, []) ∧
    TypeChecker.is_compatible_with_unification
      (.generic 20 []) (.generic 20 [.cls intId]) [] = (false, []) ∧
    TypeChecker.is_compatible_with_unification
      (.generic 20 [.cls intId, .cls strId])
      (.generic 20 [.tvar 7, .tvar 8]) [] =
      TypeChecker.checkArgs [.cls intId, .cls strId] [.tvar 7, .tvar 8] [] ∧
    TypeChecker.is_compatible_with_unification
      (.generic 20 [.cls intId]) (.cls intId) [] = (false, []) ∧
    TypeChecker.is_compatible_with_unification
      (.cls intId) (.generic 20 [.cls intId]) [] = (false, []) := by
  refine ⟨(claim_C4_generic_structure []).1 20 [.cls intId] 21 [.cls intId]
      (by decide),
    (claim_C4_generic_structure []).2.1 20 [] [.cls intId] (by decide),
    (claim_C4_generic_structure []).2.2.1 20 [.cls intId, .cls strId]
      [.tvar 7, .tvar 8] (by decide),
    (claim_C4_generic_structure []).2.2.2.2.1 20 [.cls intId] (.cls intId)
      (fun v => by simp) rfl,
    (claim_C4_generic_structure []).2.2.2.2.2 (.cls intId) 20 [.cls intId]
      rfl⟩

/-- Claim C8: with a non-TypeVar expected type and no generic structure on either
side: for two plain classes, compatibility holds exactly when the actual
class equals the expected class or is a (non-strict) subclass of it (e.g.
`bool` where `int` is expected); in every other constellation compatibility
is plain equality of the two descriptors.  The context is never touched. -/
theorem claim_C8_plain_classes (m : Ctx) :
    (∀ ca ce, TypeChecker.is_compatible_with_unification
      (.cls ca) (.cls ce) m = ((ca == ce || subclassTable ca ce), m)) ∧
    (∀ a e, (∀ v, e ≠ Ty.tvar v) → getOrigin a = none → getOrigin e = none →
      ¬(isClass a = true ∧ isClass e = true) →
      TypeChecker.is_compatible_with_unification a e m
        = (decide (a = e), m)) := by
  constructor
  · intro ca ce
    by_cases hr : subclasscheckRaises ce = true
    · have hce : ce = 9 := by simpa [subclasscheckRaises, weirdId] using hr
      subst hce
      simp [TypeChecker.is_compatible_with_unification, TypeChecker.tcBody,
        pyIssubclass, subclasscheckRaises, tyEq, subclassTable, weirdId,
        objectId, boolId, intId]
    · simp only [TypeChecker.is_compatible_with_unification,
        TypeChecker.tcBody, pyIssubclass, hr, if_false, Bool.false_eq_true]
      have habs : (ca == ce || subclassTable ca ce) = subclassTable ca ce
        := by
        simp [subclassTable, ← Bool.or_assoc]
      rw [habs]
  · intro a e hv ha he hcls
    cases a <;> cases e <;>
      simp_all [TypeChecker.is_compatible_with_unification,
        TypeChecker.tcBody, getOrigin, isClass, tyEq_eq_decide]

theorem claim_C8_witness :
    TypeChecker.is_compatible_with_unification (.cls boolId) (.cls intId) []
      = ((boolId == intId || subclassTable boolId intId), []) ∧
    TypeChecker.is_compatible_with_unification (.other 3) (.cls intId) []
      = (decide ((Ty.other 3) = .cls intId), []) :=
  ⟨(claim_C8_plain_classes []).1 boolId intId,
    (claim_C8_plain_classes []).2 (.other 3) (.cls intId)
      (fun v => by simp) rfl rfl (by simp [isClass])⟩

/-- Claim C1 (counterexample): the claim says every internal introspection
failure is converted into an incompatible (`False`) result.  In
`TypeChecker.is_compatible_with_unification` the handler instead returns
`actual == expected` (type_checker.py lines 49-50).  Checking a class
against itself when its metaclass's `__subclasscheck__` raises `TypeError`
makes the body raise — an internal introspection failure — yet the call
returns `True`. -/
theorem claim_C1_counterexample :
    TypeChecker.tcBody (.cls weirdId) (.cls weirdId) [] =
      (.error .typeError, []) ∧
    TypeChecker.is_compatible_with_unification
      (.cls weirdId) (.cls weirdId) [] = (true, []) := by
  constructor
  · simp [TypeChecker.tcBody, pyIssubclass, subclasscheckRaises]
  · simp [TypeChecker.is_compatible_with_unification, TypeChecker.tcBody,
      pyIssubclass, subclasscheckRaises, tyEq]

/-- Claim C1 (amended): neither engine propagates a caught exception — each call
returns exactly `True` or `False` — but the conversions differ:
`MethodChecker.are_compatible_with_unification` turns a raising body into
`False`, while `TypeChecker.is_compatible_with_unification` turns it into
`actual == expected`, which is `True` whenever the two descriptors compare
equal. -/
theorem claim_C1_amended (a e : Ty) (am pm : PyMethod) (m m' : Ctx) :
    (∀ err, TypeChecker.tcBody a e m = (.error err, m') →
      TypeChecker.is_compatible_with_unification a e m
        = (decide (a = e), m')) ∧
    (∀ err, MethodChecker.mcBody am pm m = (.error err, m') →
      MethodChecker.are_compatible_with_unification am pm m
        = (false, m')) := by
  constructor
  · intro err h
    simp [TypeChecker.is_compatible_with_unification, h, tyEq_eq_decide]
  · intro err h
    simp [MethodChecker.are_compatible_with_unification, h]

theorem claim_C1_amended_witness :
    TypeChecker.is_compatible_with_unification
      (.cls boolId) (.cls weirdId) []
      = (decide ((Ty.cls boolId) = .cls weirdId), []) ∧
    MethodChecker.are_compatible_with_unification brokenSig processProto []
      = (false, []) :=
  ⟨(claim_C1_amended (.cls boolId) (.cls weirdId) brokenSig processProto
      [] []).1 .typeError
      (by simp [TypeChecker.tcBody, pyIssubclass, subclasscheckRaises]),
    (claim_C1_amended (.cls boolId) (.cls weirdId) brokenSig processProto
      [] []).2 .valueError
      (by simp [MethodChecker.mcBody, brokenSig])⟩

/-- Claim C9: every binding present in the context before a call to either
engine is still present, with the same value, in the context the call
leaves behind — whether the result is `True` or `False`; the engines only
ever add bindings for previously unbound TypeVars, never overwrite or
remove one. -/
theorem claim_C9_context_monotone (a e : Ty) (am pm : PyMethod) (m : Ctx)
    (v : Nat) (t : Ty) (h : lookupTV v m = some t) :
    lookupTV v (TypeChecker.is_compatible_with_unification a e m).2
      = some t ∧
    lookupTV v (MethodChecker.are_compatible_with_unification am pm m).2
      = some t :=
  ⟨TypeChecker.is_compatible_with_unification_preserves a e m v t h,
    MethodChecker.are_compatible_with_unification_preserves am pm m v t h⟩

theorem claim_C9_witness :
    lookupTV 7 (TypeChecker.is_compatible_with_unification
      (.cls strId) (.tvar 7) [(7, .cls intId)]).2 = some (.cls intId) ∧
    lookupTV 7 (MethodChecker.are_compatible_with_unification
      processCand processProto [(7, .cls intId)]).2 = some (.cls intId) :=
  claim_C9_context_monotone (.cls strId) (.tvar 7) processCand processProto
    [(7, .cls intId)] 7 (.cls intId) (by simp [lookupTV])

/-- `def process(data, self)`: `processCand` with its parameters reordered
(types untouched). -/
def swappedCand : PyMethod :=
  { processCand with paramNames := [dataName, selfName] }

/-- Claim C5: the method check returns `False` whenever the candidate's parameter
count differs from the protocol method's, or whenever the name at any
position differs between candidate and protocol — matching is name-for-name
and order-sensitive. -/
theorem claim_C5_param_matching (am pm : PyMethod) (m : Ctx) :
    (am.paramNames.length ≠
        (pm.originalParamNames.getD pm.paramNames).length →
      (MethodChecker.are_compatible_with_unification am pm m).1 = false) ∧
    (∀ i, am.paramNames.get? i ≠
        (pm.originalParamNames.getD pm.paramNames).get? i →
      (MethodChecker.are_compatible_with_unification am pm m).1
        = false) := by
  have key : (MethodChecker.are_compatible_with_unification am pm m).1
      = true →
      am.paramNames = pm.originalParamNames.getD pm.paramNames := by
    intro hT
    obtain ⟨-, -, -, hlen, hparams, -⟩ :=
      MethodChecker.are_compat_true_inv am pm m hT
    exact MethodChecker.mcParams_names_eq _ _ _ _ _ hparams hlen
  constructor
  · intro hne
    cases hres : (MethodChecker.are_compatible_with_unification am pm m).1
    · rfl
    · exact absurd (by rw [key hres]) hne
  · intro i hne
    cases hres : (MethodChecker.are_compatible_with_unification am pm m).1
    · rfl
    · exact absurd (by rw [key hres]) hne

theorem claim_C5_witness :
    (MethodChecker.are_compatible_with_unification
      processCand oneParamProto []).1 = false ∧
    (MethodChecker.are_compatible_with_unification
      swappedCand processProto []).1 = false :=
  ⟨(claim_C5_param_matching processCand oneParamProto []).1
      (by simp [processCand, oneParamProto]),
    (claim_C5_param_matching swappedCand processProto []).2 0
      (by simp [swappedCand, processCand, processProto, dataName, selfName])⟩

/-- Claim C7: a sync/async mismatch between candidate and protocol method makes
the check return `False` immediately, whatever the parameter and return
types, leaving the context untouched. -/
theorem claim_C7_async (am pm : PyMethod) (m : Ctx)
    (h : am.isCoroutine ≠ pm.isCoroutine) :
    MethodChecker.are_compatible_with_unification am pm m = (false, m) := by
  have hb : (am.isCoroutine != pm.isCoroutine) = true := by simpa using h
  by_cases h1 : am.sigRaises = true
  · simp [MethodChecker.are_compatible_with_unification,
      MethodChecker.mcBody, h1]
  · by_cases h2 : pm.sigRaises = true
    · simp [MethodChecker.are_compatible_with_unification,
        MethodChecker.mcBody, h1, h2]
    · simp [MethodChecker.are_compatible_with_unification,
        MethodChecker.mcBody, h1, h2, hb]

theorem claim_C7_witness :
    MethodChecker.are_compatible_with_unification asyncCand processProto []
      = (false, []) :=
  claim_C7_async asyncCand processProto []
    (by simp [asyncCand, processCand, processProto])

/-- Claim C10: the receiver participates in matching: if the first (receiver)
parameter names of candidate and protocol method differ, the check returns
`False` — even when every declared type matches, as the witness shows with
`this` against `self`. -/
theorem claim_C10_receiver (am pm : PyMethod) (m : Ctx) (a0 p0 : Nat)
    (ha : am.paramNames.head? = some a0)
    (hp : (pm.originalParamNames.getD pm.paramNames).head? = some p0)
    (hne : a0 ≠ p0) :
    (MethodChecker.are_compatible_with_unification am pm m).1 = false := by
  cases hres : (MethodChecker.are_compatible_with_unification am pm m).1
  · rfl
  · obtain ⟨-, -, -, hlen, hparams, -⟩ :=
      MethodChecker.are_compat_true_inv am pm m hres
    have heq := MethodChecker.mcParams_names_eq _ _ _ _ _ hparams hlen
    rw [heq, hp] at ha
    exact absurd (Option.some.inj ha).symm hne

theorem claim_C10_witness :
    (MethodChecker.are_compatible_with_unification
      thisCand processProto []).1 = false :=
  claim_C10_receiver thisCand processProto [] thisName selfName
    (by simp [thisCand, processCand]) (by simp [processProto]) (by decide)

/-- Claim C6: in a successful check, every parameter the protocol declares a type
for also carries a candidate annotation that passed the type engine (in the
context the loop had reached); the loop is exactly a left-to-right fold of
the per-parameter step over the shared name list, threading one context;
and a protocol method whose parameters are all untyped imposes no
constraint on the candidate's parameter annotations. -/
theorem claim_C6_typed_params (am pm : PyMethod) (m : Ctx) :
    ((MethodChecker.are_compatible_with_unification am pm m).1 = true →
      ∀ n ∈ am.paramNames, ∀ pt, pyGet pm.anns n = some pt →
        ∃ at', pyGet am.anns n = some at' ∧
          ∃ mb, (TypeChecker.is_compatible_with_unification at' pt mb).1
            = true) ∧
    (∀ (ns : List Nat) aA pA m0, MethodChecker.mcParams ns ns aA pA m0 =
      ns.foldl (MethodChecker.mcStep aA pA) (true, m0)) ∧
    (∀ (ns : List Nat) aA pA m0, (∀ n ∈ ns, pyGet pA n = none) →
      MethodChecker.mcParams ns ns aA pA m0 = (true, m0)) := by
  refine ⟨?_,
    fun ns aA pA m0 => MethodChecker.mcParams_eq_foldl ns aA pA m0,
    fun ns aA pA m0 h => MethodChecker.mcParams_untyped ns aA pA m0 h⟩
  intro hT n hn pt hpt
  obtain ⟨-, -, -, hlen, hparams, -⟩ :=
    MethodChecker.are_compat_true_inv am pm m hT
  have heq := MethodChecker.mcParams_names_eq _ _ _ _ _ hparams hlen
  rw [← heq] at hparams
  exact MethodChecker.mcParams_true_typed am.paramNames am.anns pm.anns m
    hparams n hn pt hpt

theorem claim_C6_witness :
    ∃ at', pyGet processCand.anns dataName = some at' ∧
      ∃ mb, (TypeChecker.is_compatible_with_unification
        at' (.cls bytesId) mb).1 = true :=
  (claim_C6_typed_params processCand processProto []).1
    (by simp [MethodChecker.are_compatible_with_unification,
      MethodChecker.mcBody, MethodChecker.mcParams, processCand,
      processProto, pyGet, lookupAnn, TypeChecker.is_compatible_with_unification,
      TypeChecker.tcBody, pyIssubclass, subclasscheckRaises, subclassTable,
      tyEq, selfName, dataName, returnKey, bytesId, strId, weirdId, objectId,
      boolId, intId])
    dataName (by simp [processCand, dataName, selfName])
    (.cls bytesId)
    (by simp [processProto, pyGet, lookupAnn, returnKey, dataName, selfName])

/-- Claim C2 (counterexample): the claim says a protocol method declaring the
"no value" (`None`) return must be matched exactly by the candidate.  In
the code, a declared `-> None` stores the object `None` in
`__annotations__`, so `protocol_annotations.get('return') is not None` is
false and the whole return check is skipped (method_checker.py lines
55-58): a candidate declaring `-> int` passes against a protocol declaring
`-> None`. -/
theorem claim_C2_counterexample :
    lookupAnn returnKey noneRetProto.anns = some none ∧
    lookupAnn returnKey intRetCand.anns = some (some (.cls intId)) ∧
    MethodChecker.are_compatible_with_unification intRetCand noneRetProto []
      = (true, []) := by
  refine ⟨rfl, rfl, ?_⟩
  simp [MethodChecker.are_compatible_with_unification,
    MethodChecker.mcBody, MethodChecker.mcParams, noneRetProto, intRetCand,
    pyGet, lookupAnn, selfName, returnKey]

/-- Claim C2 (amended): if the protocol's `.get('return')` yields a non-`None`
declared return, the candidate must carry a (non-`None`) return annotation
that satisfies the type engine under the shared context; but a declared
`-> None` return is stored as the object `None`, is indistinguishable from
an absent return annotation, and imposes no constraint on the candidate's
declared return. -/
theorem claim_C2_amended (am pm : PyMethod) (m : Ctx) :
    (∀ pr, pyGet pm.anns returnKey = some pr →
      pyGet am.anns returnKey = none →
      (MethodChecker.are_compatible_with_unification am pm m).1 = false) ∧
    (∀ pr, pyGet pm.anns returnKey = some pr →
      (MethodChecker.are_compatible_with_unification am pm m).1 = true →
      ∃ ar mb, pyGet am.anns returnKey = some ar ∧
        (TypeChecker.is_compatible_with_unification ar pr mb).1 = true) ∧
    (lookupAnn returnKey pm.anns = some none →
      pyGet pm.anns returnKey = none) := by
  refine ⟨?_, ?_, ?_⟩
  · intro pr hpr hnone
    cases hres : (MethodChecker.are_compatible_with_unification am pm m).1
    · rfl
    · obtain ⟨-, -, -, -, -, hret⟩ :=
        MethodChecker.are_compat_true_inv am pm m hres
      obtain ⟨ar, har, -⟩ := hret pr hpr
      rw [hnone] at har
      simp at har
  · intro pr hpr hT
    obtain ⟨-, -, -, -, -, hret⟩ :=
      MethodChecker.are_compat_true_inv am pm m hT
    obtain ⟨ar, har, hc⟩ := hret pr hpr
    exact ⟨ar, _, har, hc⟩
  · intro h
    simp [pyGet, h]

theorem claim_C2_amended_witness :
    (MethodChecker.are_compatible_with_unification
      noRetCand processProto []).1 = false :=
  (claim_C2_amended noRetCand processProto []).1 (.cls strId)
    (by simp [processProto, pyGet, lookupAnn, returnKey, dataName])
    (by simp [noRetCand, processCand, pyGet, lookupAnn, returnKey, dataName])
